import Mathlib

/-!
Verification development for the label-reconciliation helpers
(package tpgresource: SetLabels, SetLabelsDiff) and the storage-bucket
resource controller (resource_storage_bucket.go) of the provider.

Modelling conventions:
* Go maps of strings are modelled extensionally as functions
  `String → Option String`; the per-key Go loops over such maps become
  pointwise definitions, which is equivalent because every loop in the
  source either overlays one map onto another or deletes a key set that
  is disjoint from the overlaid keys, so iteration order does not matter.
* A Go `nil` map or `nil` interface value is an explicit `Option.none`.
* `d.Get`, `d.GetChange`, `d.SetNew` of the host framework are modelled
  by explicit state passing: the prior state values are inputs, the new
  values are the returned record.  `d.GetOk` of a collection is `true`
  exactly when the collection is non-empty (the framework treats the
  zero value as not ok).
-/

/-- A Go `map[string]string`, modelled extensionally. -/
def LabelMap : Type := String → Option String

/-- The two label fields of the diff state that SetLabelsDiff rewrites. -/
structure LabelState where
  terraformLabels : LabelMap
  effectiveLabels : LabelMap

/-- Lines 36-49 of SetLabelsDiff: `terraformLabels` starts as a copy of
`config.DefaultLabels` and every user label is then written over it, so
the user value wins on a key collision. -/
def mergeLabels (defaultLabels userLabels : LabelMap) : LabelMap :=
  fun k =>
    match userLabels k with
    | some v => some v
    | none => defaultLabels k

/-- Shallow embedding of `SetLabelsDiff` (part_000 lines 32-73).
`labels` is the raw value of `d.Get ("labels")`; when it is Go `nil`
(`none` here) the function returns at line 43 before any `SetNew`, so
the state is unchanged.  Otherwise `terraform_labels` is set to the
merge of the provider default labels with the user labels, and
`effective_labels` is rewritten from the prior effective labels by the
two loops of lines 58-66: every key of the new `terraform_labels` is
overlaid, then every key of the old `terraform_labels` that is absent
from the new one is deleted. -/
def SetLabelsDiff (defaultLabels : LabelMap) (labels : Option LabelMap)
    (s : LabelState) : LabelState :=
  match labels with
  | none => s
  | some u =>
    { terraformLabels := mergeLabels defaultLabels u
      effectiveLabels := fun k =>
        match mergeLabels defaultLabels u k with
        | some v => some v
        | none =>
          if (s.terraformLabels k).isSome then none else s.effectiveLabels k }

/-- Shallow embedding of `SetLabels` (part_000 lines 18-30).
`labels` is the label map returned by the remote read (`none` = Go nil);
`configLabels` is `d.GetOk lineage` (`none` = not ok, in particular an
empty declared map).  The source copies, for every key of the declared
configuration, the remote value of that key into `transformed`; a key
missing from the remote map yields the Go zero value `""`. -/
def SetLabels (labels : Option LabelMap) (configLabels : Option LabelMap) :
    LabelMap :=
  match configLabels, labels with
  | some cfg, some l =>
      fun k => if (cfg k).isSome then some ((l k).getD "") else none
  | _, _ => fun _ => none

/-! Concrete label maps and states used by witnesses and counterexamples. -/

def emptyLabelMap : LabelMap := fun _ => none

def defaultsEnvProd : LabelMap :=
  fun k => if k = "env" then some "prod" else none

def userTeamX : LabelMap :=
  fun k => if k = "team" then some "x" else none

def oldKeyOnly : LabelMap :=
  fun k => if k = "old" then some "x" else none

def stateOldKey : LabelState :=
  { terraformLabels := oldKeyOnly, effectiveLabels := oldKeyOnly }

def stateStaleExtra : LabelState :=
  { terraformLabels := emptyLabelMap
    effectiveLabels := fun k => if k = "extra" then some "z" else none }

def emptyLabelState : LabelState :=
  { terraformLabels := emptyLabelMap, effectiveLabels := emptyLabelMap }

/-- C1 (counterexample): with empty default and user labels but a prior
state whose `effective_labels` holds a key `"extra"` that is not in the
prior `terraform_labels`, SetLabelsDiff keeps `"extra"` in the effective
labels even though it is in neither `DefaultLabels` nor `UserLabels`, so
the reconciled effective labels are not `DefaultLabels ∪ UserLabels` for
every prior state. -/
theorem setLabelsDiff_stale_effective_key_persists :
    (SetLabelsDiff emptyLabelMap (some emptyLabelMap)
        stateStaleExtra).effectiveLabels "extra" = some "z"
    ∧ mergeLabels emptyLabelMap emptyLabelMap "extra" = none := by
  constructor
  · rfl
  · rfl

/-- C1 (amended): provided every key of the prior `effective_labels` is
also a key of the prior `terraform_labels` (the invariant reconciliation
itself maintains), SetLabelsDiff makes the effective labels pointwise
equal to the merge of `DefaultLabels` and `UserLabels` with the user
value winning; in particular a key dropped from the user labels is
removed unless the default labels still carry it, in which case it keeps
the default value. -/
theorem setLabelsDiff_effective_merges_under_invariant
    (defaultLabels userLabels : LabelMap) (s : LabelState)
    (hinv : ∀ k, (s.effectiveLabels k).isSome = true →
      (s.terraformLabels k).isSome = true) (k : String) :
    (SetLabelsDiff defaultLabels (some userLabels) s).effectiveLabels k
      = mergeLabels defaultLabels userLabels k := by
  show (match mergeLabels defaultLabels userLabels k with
    | some v => some v
    | none =>
      if (s.terraformLabels k).isSome then none else s.effectiveLabels k)
    = mergeLabels defaultLabels userLabels k
  cases hm : mergeLabels defaultLabels userLabels k with
  | some v => rfl
  | none =>
    simp only
    by_cases ht : (s.terraformLabels k).isSome = true
    · simp [ht]
    · have he : ¬ (s.effectiveLabels k).isSome = true := fun h => ht (hinv k h)
      simp only [ht, if_neg]
      simpa using he

/-- C1 (witness): at `DefaultLabels = (env ↦ prod)`,
`UserLabels = (team ↦ x)` and a prior state whose terraform and
effective labels both hold only the key `old`, the amended theorem
applies and shows the dropped key `old` is removed. -/
theorem setLabelsDiff_effective_merges_witness :
    (SetLabelsDiff defaultsEnvProd (some userTeamX)
        stateOldKey).effectiveLabels "old"
      = mergeLabels defaultsEnvProd userTeamX "old" :=
  setLabelsDiff_effective_merges_under_invariant defaultsEnvProd userTeamX
    stateOldKey (fun _ h => h) "old"

/-- C5: whatever label map the remote read returns, the read-side
projection SetLabels only ever produces keys that are present in the
declared configuration; and when the configuration lookup is not ok the
result is the empty map. -/
theorem setLabels_keys_subset_config :
    (∀ (labels cfg : LabelMap) (k : String),
        ((SetLabels (some labels) (some cfg)) k).isSome = true →
        (cfg k).isSome = true)
    ∧ (∀ (labels : Option LabelMap) (k : String),
        SetLabels labels none k = none) := by
  constructor
  · intro labels cfg k h
    by_cases hc : (cfg k).isSome = true
    · exact hc
    · exact absurd h (by simp [SetLabels, hc])
  · intro labels k
    cases labels <;> rfl

/-- C5 (witness): the remote map carries the extra key `env` on top of
the declared key `team`; the projection at key `team` is a declared key. -/
theorem setLabels_keys_subset_config_witness :
    (userTeamX "team").isSome = true :=
  setLabels_keys_subset_config.1 defaultsEnvProd userTeamX "team" (by decide)

/-- C6: reconciling a second time with the same user labels is
idempotent — the second SetLabelsDiff pass changes neither
`terraform_labels` nor `effective_labels`. -/
theorem setLabelsDiff_idempotent
    (defaultLabels userLabels : LabelMap) (s : LabelState) :
    SetLabelsDiff defaultLabels (some userLabels)
        (SetLabelsDiff defaultLabels (some userLabels) s)
      = SetLabelsDiff defaultLabels (some userLabels) s := by
  show LabelState.mk _ _ = LabelState.mk _ _
  congr 1
  funext k
  cases hm : mergeLabels defaultLabels userLabels k with
  | some v => simp [SetLabelsDiff, hm]
  | none => simp [SetLabelsDiff, hm]

/-- C8 (counterexample): a nil user-label input is not treated as an
empty map: with `DefaultLabels = (env ↦ prod)` and nil labels,
SetLabelsDiff leaves `terraform_labels` unchanged (the defaults are not
merged), while an empty labels map would have produced
`terraform_labels env = prod`. -/
theorem setLabelsDiff_nil_labels_skips_defaults :
    (SetLabelsDiff defaultsEnvProd none emptyLabelState).terraformLabels "env"
        = none
    ∧ (SetLabelsDiff defaultsEnvProd (some emptyLabelMap)
          emptyLabelState).terraformLabels "env" = some "prod" := by
  constructor
  · rfl
  · rfl

/-- C8 (amended): the label helpers are total and the label handling
itself never produces an error, but nil inputs are not equivalent to
empty maps: SetLabelsDiff with nil user labels returns the prior state
unchanged (no default-label merge), and SetLabels with a nil remote
label map produces the empty map. -/
theorem label_helpers_nil_behavior :
    (∀ (defaultLabels : LabelMap) (s : LabelState),
        SetLabelsDiff defaultLabels none s = s)
    ∧ (∀ (configLabels : Option LabelMap) (k : String),
        SetLabels none configLabels k = none) := by
  constructor
  · intro defaultLabels s
    rfl
  · intro configLabels k
    cases configLabels <;> rfl

/-!
Bucket deletion (resource_storage_bucket.go lines 506-585).

The delete loop lists all object versions; when the listing is non-empty
and `force_destroy` is set it submits one `Objects.Delete` call per
listed (name, generation) pair to a worker pool, waits for the pool to
drain (`StopWait`), and lists again; when the listing is non-empty and
`force_destroy` is not set it returns a "bucket not empty" error at
once; when the listing is empty it leaves the loop and issues the
`Buckets.Delete` call.

The embedding records the submitted remote calls as a trace.  `fails`
tells which objects the remote refuses to delete: a failed delete is
only logged by the source, and the object stays in the bucket for the
next listing.  The pool size only bounds concurrency and the pool is
fully drained before the next listing, so the trace is independent of
it; it is still a parameter so that the theorems can quantify over it.
The loop itself is unbounded in the source, so it is fuel-indexed here:
`none` means the loop is still running after `fuel` listings.
-/

structure GcsObject where
  name : String
  generation : Int
deriving DecidableEq

inductive StorageCall where
  | objectDelete (bucket name : String) (generation : Int)
  | bucketDelete (bucket : String)
deriving DecidableEq

inductive DeleteOutcome where
  | ok
  | bucketNotEmpty
deriving DecidableEq

/-- The delete-call outcome model in which every object delete succeeds. -/
def noFailure : GcsObject → Bool := fun _ => false

/-- One `Objects.Delete(bucket, name).Generation(generation)` submission
per listed object version, in listing order (lines 537-553). -/
def objectDeleteCalls (bucket : String) (objs : List GcsObject) :
    List StorageCall :=
  objs.map fun o => .objectDelete bucket o.name o.generation

/-- The `for` loop of lines 512-565.  `objs` is the current listing. -/
def bucketDeleteLoop (bucket : String) (fails : GcsObject → Bool)
    (poolSize : Nat) (forceDestroy : Bool) :
    Nat → List GcsObject → Option (List StorageCall × DeleteOutcome)
  | 0, _ => none
  | _ + 1, [] => some ([], .ok)
  | fuel + 1, o :: os =>
    if forceDestroy then
      match bucketDeleteLoop bucket fails poolSize forceDestroy fuel
          ((o :: os).filter fails) with
      | none => none
      | some (tr, r) => some (objectDeleteCalls bucket (o :: os) ++ tr, r)
    else some ([], .bucketNotEmpty)

/-- resourceStorageBucketDelete: run the loop, then issue the final
`Buckets.Delete` call (lines 567-581; its 429 retry wrapper is the
success path here and issues the call once). -/
def resourceStorageBucketDelete (bucket : String) (fails : GcsObject → Bool)
    (poolSize fuel : Nat) (objs : List GcsObject) (forceDestroy : Bool) :
    Option (List StorageCall × DeleteOutcome) :=
  match bucketDeleteLoop bucket fails poolSize forceDestroy fuel objs with
  | none => none
  | some (tr, .ok) => some (tr ++ [.bucketDelete bucket], .ok)
  | some (tr, .bucketNotEmpty) => some (tr, .bucketNotEmpty)

theorem filter_noFailure (l : List GcsObject) : l.filter noFailure = [] := by
  induction l with
  | nil => rfl
  | cons a as ih => simp [List.filter, noFailure, ih]

/-- C2: deleting a bucket that lists N object versions with
`force_destroy` set issues exactly the N object-delete calls, one per
listed (name, generation) pair — each pair exactly once when the listing
has no duplicate pairs — followed by the single bucket-delete call, and
this for every worker-pool size. -/
theorem forceDestroy_delete_trace (bucket : String) (objs : List GcsObject)
    (poolSize : Nat)
    (hnodup : (objs.map fun o => (o.name, o.generation)).Nodup) :
    resourceStorageBucketDelete bucket noFailure poolSize 2 objs true
      = some (objectDeleteCalls bucket objs ++ [.bucketDelete bucket], .ok)
    ∧ ∀ o ∈ objs,
        (objectDeleteCalls bucket objs).count
            (.objectDelete bucket o.name o.generation) = 1 := by
  constructor
  · cases objs with
    | nil => rfl
    | cons a as =>
      simp [resourceStorageBucketDelete, bucketDeleteLoop, filter_noFailure]
  · intro o ho
    have hinj : Function.Injective
        (fun p : String × Int => StorageCall.objectDelete bucket p.1 p.2) := by
      intro p q h
      cases p
      cases q
      simpa using h
    have hnd : (objectDeleteCalls bucket objs).Nodup := by
      have : objectDeleteCalls bucket objs
          = (objs.map fun o => (o.name, o.generation)).map
              (fun p : String × Int => StorageCall.objectDelete bucket p.1 p.2) := by
        simp [objectDeleteCalls]
      rw [this]
      exact hnodup.map hinj
    have hmem : StorageCall.objectDelete bucket o.name o.generation
        ∈ objectDeleteCalls bucket objs := by
      simp only [objectDeleteCalls]
      exact List.mem_map_of_mem _ ho
    exact List.count_eq_one_of_mem hnd hmem

def objsTwo : List GcsObject := [⟨"a", 1⟩, ⟨"b", 2⟩]

/-- C2 (witness): a two-object bucket with pool size 3. -/
theorem forceDestroy_delete_trace_witness :
    resourceStorageBucketDelete "bkt" noFailure 3 2 objsTwo true
      = some (objectDeleteCalls "bkt" objsTwo ++ [.bucketDelete "bkt"], .ok) :=
  (forceDestroy_delete_trace "bkt" objsTwo 3 (by decide)).1

/-- C3: deleting a bucket whose listing is non-empty without
`force_destroy` returns the "bucket not empty" error on the first
listing, with no object-delete call and no bucket-delete call issued,
whatever the per-object outcomes and pool size would have been. -/
theorem delete_without_forceDestroy_fails_not_empty (bucket : String)
    (fails : GcsObject → Bool) (poolSize fuel : Nat)
    (objs : List GcsObject) (h : objs ≠ []) :
    resourceStorageBucketDelete bucket fails poolSize (fuel + 1) objs false
      = some ([], .bucketNotEmpty) := by
  cases objs with
  | nil => exact absurd rfl h
  | cons a as => rfl

/-- C3 (witness): a one-object bucket without force destroy. -/
theorem delete_without_forceDestroy_fails_not_empty_witness :
    resourceStorageBucketDelete "bkt" noFailure 3 1 [⟨"a", 1⟩] false
      = some ([], .bucketNotEmpty) :=
  delete_without_forceDestroy_fails_not_empty "bkt" noFailure 3 0 [⟨"a", 1⟩]
    (by decide)

/-- C7 (code_bug evaluation): when the single object of the bucket can
never be deleted, the forced delete loop re-lists and re-submits the
delete forever — for every fuel bound and pool size the run is still
looping — so the bucket-delete call is never issued and the failure is
never surfaced through it, contrary to the claim and to the comment in
the source at lines 544-547. -/
theorem persistent_object_delete_failure_loops_forever :
    ∀ (fuel poolSize : Nat),
      resourceStorageBucketDelete "b" (fun _ => true) poolSize fuel
          [⟨"leftover", 1⟩] true = none := by
  have hloop : ∀ fuel poolSize,
      bucketDeleteLoop "b" (fun _ => true) poolSize true fuel
        [⟨"leftover", 1⟩] = none := by
    intro fuel
    induction fuel with
    | zero => intro poolSize; rfl
    | succ n ih =>
      intro poolSize
      simp only [bucketDeleteLoop, if_pos]
      rw [show ([(⟨"leftover", 1⟩ : GcsObject)].filter fun _ => true)
          = [⟨"leftover", 1⟩] from rfl]
      rw [ih poolSize]
  intro fuel poolSize
  simp [resourceStorageBucketDelete, hloop fuel poolSize]

/-!
Create and Update of the bucket resource
(resource_storage_bucket.go lines 260-452 and the expand helpers).

Conventions for this section:
* Block lists of the configuration are lists whose elements are
  `Option blk`: a `none` element is a Go `nil` block element, on which
  the source type assertions (`websites[0].(map[string]interface{})`
  and the like) would abort the process; the embedding returns the
  `panicked` outcome there.
* The keys of a block map coming from the schema are always present
  (the framework zero-fills declared fields), so the `ok`-checked map
  reads of the source are plain field reads here.
* `d.HasChange f` compares the prior and the new configuration value of
  `f`; configurations are assumed canonically represented so that
  structural equality of the embedded values coincides with equality of
  the underlying Go values.
* Label maps of the bucket resource are association lists
  `List (String × String)` because Update iterates the finite old key
  set to emit per-key null markers.
-/

inductive GoResult (α : Type) where
  | ok (val : α)
  | err (msg : String)
  | panicked

instance : Monad GoResult where
  pure := .ok
  bind := fun r f =>
    match r with
    | .ok a => f a
    | .err m => .err m
    | .panicked => .panicked

inductive GoOutcome where
  | ok
  | err (msg : String)
  | panicked
deriving DecidableEq

structure WebsiteCfg where
  notFoundPage : String
  mainPageSuffix : String
deriving DecidableEq

structure CorsCfg where
  origin : List String
  method : List String
  responseHeader : List String
  maxAgeSeconds : Int
deriving DecidableEq

structure LoggingCfg where
  logBucket : String
  logObjectPfx : String
deriving DecidableEq

structure EncryptionCfg where
  defaultKmsKeyName : String
deriving DecidableEq

structure LifecycleActionCfg where
  actionType : String
  storageClass : String
deriving DecidableEq

structure LifecycleConditionCfg where
  age : Int
  createdBefore : String
  isLive : Bool
  matchesStorageClass : List String
  numNewerVersions : Int
deriving DecidableEq

/-- One `lifecycle_rule` block: `action` and `condition` are the listed
elements of the two singleton schema sets. -/
structure LifecycleRuleCfg where
  action : List LifecycleActionCfg
  condition : List LifecycleConditionCfg
deriving DecidableEq

structure BucketConfig where
  name : String
  labels : List (String × String)
  location : String
  storageClass : String
  lifecycleRules : List (Option LifecycleRuleCfg)
  versioning : List (Option Bool)
  website : List (Option WebsiteCfg)
  cors : List (Option CorsCfg)
  logging : List (Option LoggingCfg)
  encryption : List (Option EncryptionCfg)
  requesterPays : Bool
deriving DecidableEq

structure BucketWebsite where
  notFoundPage : String
  mainPageSuffix : String
deriving DecidableEq

structure BucketVersioning where
  enabled : Bool
  forceSendFields : List String
deriving DecidableEq

structure BucketBilling where
  requesterPays : Bool
  forceSendFields : List String
deriving DecidableEq

structure BucketLifecycleRule where
  actionType : String
  actionStorageClass : String
  condAge : Int
  condCreatedBefore : String
  condIsLive : Bool
  condMatchesStorageClass : List String
  condNumNewerVersions : Int
deriving DecidableEq

structure BucketLifecycle where
  rule : List BucketLifecycleRule
  forceSendFields : List String
deriving DecidableEq

/-- The `storage.Bucket` payload of an insert or patch call; zero fields
are omitted from the remote call, names in `nullFields` are explicitly
cleared. -/
structure StorageBucket where
  name : String
  labels : List (String × String)
  location : String
  storageClass : String
  lifecycle : Option BucketLifecycle
  versioning : Option BucketVersioning
  website : Option BucketWebsite
  cors : List CorsCfg
  logging : Option LoggingCfg
  encryption : Option String
  billing : Option BucketBilling
  nullFields : List String
deriving DecidableEq

def emptyStorageBucket : StorageBucket :=
  { name := "", labels := [], location := "", storageClass := ""
    lifecycle := none, versioning := none, website := none, cors := []
    logging := none, encryption := none, billing := none, nullFields := [] }

inductive ApiCall where
  | insert (sb : StorageBucket)
  | patch (bucketName : String) (sb : StorageBucket)
deriving DecidableEq

/-- expandBucketVersioning (lines 682-692): reads `versionings[0]`; a
nil element aborts the type assertion, an empty list aborts the index
(both unreachable behind the GetOk guard). -/
def expandBucketVersioning : List (Option Bool) → GoResult BucketVersioning
  | some b :: _ => .ok { enabled := b, forceSendFields := ["Enabled"] }
  | none :: _ => .panicked
  | [] => .panicked

/-- expandCors (lines 593-607): converts every block, aborting on a nil
element. -/
def expandCors : List (Option CorsCfg) → GoResult (List CorsCfg)
  | [] => .ok []
  | none :: _ => .panicked
  | some c :: rest => do
    let cs ← expandCors rest
    pure (c :: cs)

/-- expandBucketLogging (lines 654-664): reads `loggings[0]`. -/
def expandBucketLogging : List (Option LoggingCfg) → GoResult LoggingCfg
  | some l :: _ => .ok l
  | none :: _ => .panicked
  | [] => .panicked

/-- expandBucketEncryption (lines 624-638): a nil first element or an
empty key name gives a nil encryption; an empty (non-nil) list aborts
the `encs[0]` index, unreachable behind the GetOk guard. -/
def expandBucketEncryption : List (Option EncryptionCfg) → GoResult (Option String)
  | [] => .panicked
  | none :: _ => .ok none
  | some e :: _ =>
    if e.defaultKmsKeyName = "" then .ok none else .ok (some e.defaultKmsKeyName)

/-- Lines 752-813: one lifecycle rule; the action set and the condition
set must each list exactly one element. -/
def expandLifecycleRule (r : LifecycleRuleCfg) : GoResult BucketLifecycleRule :=
  match r.action with
  | [a] =>
    match r.condition with
    | [c] =>
      .ok { actionType := a.actionType, actionStorageClass := a.storageClass
            condAge := c.age, condCreatedBefore := c.createdBefore
            condIsLive := c.isLive
            condMatchesStorageClass := c.matchesStorageClass
            condNumNewerVersions := c.numNewerVersions }
    | _ => .err "Exactly one condition is required"
  | _ => .err "Exactly one action is required"

def expandLifecycleRules :
    List (Option LifecycleRuleCfg) → GoResult (List BucketLifecycleRule)
  | [] => .ok []
  | none :: _ => .panicked
  | some r :: rest => do
    let tr ← expandLifecycleRule r
    let trs ← expandLifecycleRules rest
    pure (tr :: trs)

/-- resourceGCSBucketLifecycleCreateOrUpdate (lines 745-822): with no
lifecycle rule configured (GetOk not ok) the `Rule` field is force-sent
empty; otherwise every rule block is expanded in order. -/
def resourceGCSBucketLifecycleCreateOrUpdate
    (rules : List (Option LifecycleRuleCfg)) : GoResult BucketLifecycle :=
  match rules with
  | [] => .ok { rule := [], forceSendFields := ["Rule"] }
  | _ :: _ => do
    let trs ← expandLifecycleRules rules
    pure { rule := trs, forceSendFields := [] }

/-- resourceStorageBucketCreate (lines 260-345) up to the `Insert`
call: the full bucket payload is built from the configuration, with the
website block count validated after lifecycle and versioning have been
processed. -/
def buildCreateBucket (cfg : BucketConfig) : GoResult StorageBucket := do
  let sb0 : StorageBucket :=
    { emptyStorageBucket with
        name := cfg.name, labels := cfg.labels, location := cfg.location }
  let sb1 := if cfg.storageClass = "" then sb0
    else { sb0 with storageClass := cfg.storageClass }
  let lc ← resourceGCSBucketLifecycleCreateOrUpdate cfg.lifecycleRules
  let sb2 := { sb1 with lifecycle := some lc }
  let sb3 ← match cfg.versioning with
    | [] => pure sb2
    | _ :: _ => do
      let v ← expandBucketVersioning cfg.versioning
      pure { sb2 with versioning := some v }
  let sb4 ← match cfg.website with
    | [] => pure sb3
    | w0 :: rest =>
      if (w0 :: rest).length > 1 then
        GoResult.err "At most one website block is allowed"
      else
        match w0 with
        | some w =>
          pure { sb3 with website := some ⟨w.notFoundPage, w.mainPageSuffix⟩ }
        | none => GoResult.panicked
  let sb5 ← match cfg.cors with
    | [] => pure sb4
    | _ :: _ => do
      let cs ← expandCors cfg.cors
      pure { sb4 with cors := cs }
  let sb6 ← match cfg.logging with
    | [] => pure sb5
    | _ :: _ => do
      let l ← expandBucketLogging cfg.logging
      pure { sb5 with logging := some l }
  let sb7 ← match cfg.encryption with
    | [] => pure sb6
    | _ :: _ => do
      let e ← expandBucketEncryption cfg.encryption
      pure { sb6 with encryption := e }
  let sb8 := if cfg.requesterPays then
      { sb7 with billing := some { requesterPays := true, forceSendFields := [] } }
    else sb7
  pure sb8

/-- resourceStorageBucketCreate: on a successful build the single
`Buckets.Insert` call is issued (the retry wrapper is the success path);
a validation error or an aborted type assertion issues no remote call. -/
def resourceStorageBucketCreate (cfg : BucketConfig) :
    List ApiCall × GoOutcome :=
  match buildCreateBucket cfg with
  | .ok sb => ([.insert sb], .ok)
  | .err m => ([], .err m)
  | .panicked => ([], .panicked)

/-- resourceStorageBucketUpdate (lines 347-452) up to the `Patch` call:
the sparse patch.  Fields follow the source order: lifecycle and
requester-pays and versioning and website on change, cors whenever the
new value is non-empty (no change guard in the source), logging and
encryption on change with an explicit null marker when cleared, labels
on change with a whole-map null marker when the new map is empty and a
per-key `Labels.<key>` marker for every old key absent from the new
map.  In the website branch that clears the configuration the source
writes through `sb.Website`, which is nil there. -/
def buildUpdatePatch (old new : BucketConfig) : GoResult StorageBucket := do
  let sb0 := emptyStorageBucket
  let sb1 ← if old.lifecycleRules = new.lifecycleRules then pure sb0
    else do
      let lc ← resourceGCSBucketLifecycleCreateOrUpdate new.lifecycleRules
      pure { sb0 with lifecycle := some lc }
  let sb2 := if old.requesterPays = new.requesterPays then sb1
    else { sb1 with billing := some ⟨new.requesterPays, ["RequesterPays"]⟩ }
  let sb3 ← if old.versioning = new.versioning then pure sb2
    else match new.versioning with
      | [] => pure sb2
      | _ :: _ => do
        let v ← expandBucketVersioning new.versioning
        pure { sb2 with versioning := some v }
  let sb4 ← if old.website = new.website then pure sb3
    else match new.website with
      | [] => pure sb3
      | w0 :: rest =>
        if (w0 :: rest).length > 1 then
          GoResult.err "At most one website block is allowed"
        else if w0 = none then
          match sb3.website with
          | none => GoResult.panicked
          | some _ => pure { sb3 with website := some ⟨"", ""⟩ }
        else
          match w0 with
          | some w =>
            pure { sb3 with website := some ⟨w.notFoundPage, w.mainPageSuffix⟩ }
          | none => GoResult.panicked
  let sb5 ← match new.cors with
    | [] => pure sb4
    | _ :: _ => do
      let cs ← expandCors new.cors
      pure { sb4 with cors := cs }
  let sb6 ← if old.logging = new.logging then pure sb5
    else match new.logging with
      | [] => pure { sb5 with nullFields := sb5.nullFields ++ ["Logging"] }
      | _ :: _ => do
        let l ← expandBucketLogging new.logging
        pure { sb5 with logging := some l }
  let sb7 ← if old.encryption = new.encryption then pure sb6
    else match new.encryption with
      | [] => pure { sb6 with nullFields := sb6.nullFields ++ ["Encryption"] }
      | _ :: _ => do
        let e ← expandBucketEncryption new.encryption
        pure { sb6 with encryption := e }
  let sb8 := if old.labels = new.labels then sb7
    else
      let withLabels := { sb7 with labels := new.labels }
      let withMapNull := if new.labels = [] then
          { withLabels with nullFields := withLabels.nullFields ++ ["Labels"] }
        else withLabels
      { withMapNull with nullFields := withMapNull.nullFields ++
          (((old.labels.map Prod.fst).filter
              (fun k => (new.labels.lookup k).isNone)).map
            (fun k => "Labels." ++ k)) }
  pure sb8

/-- resourceStorageBucketUpdate: on a successful build the single
`Buckets.Patch(name, sb)` call is issued; an error or an aborted type
assertion issues no remote call. -/
def resourceStorageBucketUpdate (old new : BucketConfig) :
    List ApiCall × GoOutcome :=
  match buildUpdatePatch old new with
  | .ok sb => ([.patch (new.name) sb], .ok)
  | .err m => ([], .err m)
  | .panicked => ([], .panicked)

/-! Reduction lemmas for the GoResult monad and shape lemmas showing the
lifecycle and versioning expanders cannot abort on nil-free input. -/

@[simp] theorem goResult_bind_ok {α β : Type} (a : α) (f : α → GoResult β) :
    (GoResult.ok a >>= f) = f a := rfl

@[simp] theorem goResult_bind_err {α β : Type} (m : String)
    (f : α → GoResult β) : (GoResult.err m >>= f) = GoResult.err m := rfl

@[simp] theorem goResult_bind_panicked {α β : Type} (f : α → GoResult β) :
    (GoResult.panicked >>= f) = GoResult.panicked := rfl

@[simp] theorem goResult_pure {α : Type} (a : α) :
    (pure a : GoResult α) = GoResult.ok a := rfl

theorem expandLifecycleRule_shape (r : LifecycleRuleCfg) :
    (∃ tr, expandLifecycleRule r = .ok tr)
    ∨ (∃ m, expandLifecycleRule r = .err m) := by
  unfold expandLifecycleRule
  rcases hA : r.action with _ | ⟨a, _ | ⟨a2, arest⟩⟩
  · exact Or.inr ⟨_, rfl⟩
  · rcases hC : r.condition with _ | ⟨c, _ | ⟨c2, crest⟩⟩
    · exact Or.inr ⟨_, rfl⟩
    · exact Or.inl ⟨_, rfl⟩
    · exact Or.inr ⟨_, rfl⟩
  · exact Or.inr ⟨_, rfl⟩

theorem expandLifecycleRules_shape :
    ∀ rules : List (Option LifecycleRuleCfg),
      (∀ r ∈ rules, r.isSome = true) →
      (∃ trs, expandLifecycleRules rules = .ok trs)
      ∨ (∃ m, expandLifecycleRules rules = .err m) := by
  intro rules
  induction rules with
  | nil => intro _; exact Or.inl ⟨[], rfl⟩
  | cons r rest ih =>
    intro h
    match r with
    | none =>
      have := h none (by simp)
      simp at this
    | some rc =>
      have hrest := ih (fun x hx => h x (by simp [hx]))
      rcases expandLifecycleRule_shape rc with ⟨tr, htr⟩ | ⟨m, hm⟩
      · rcases hrest with ⟨trs, htrs⟩ | ⟨m, hm⟩
        · exact Or.inl ⟨tr :: trs, by simp [expandLifecycleRules, htr, htrs]⟩
        · exact Or.inr ⟨m, by simp [expandLifecycleRules, htr, hm]⟩
      · exact Or.inr ⟨m, by simp [expandLifecycleRules, hm]⟩

theorem lifecycleCreateOrUpdate_shape
    (rules : List (Option LifecycleRuleCfg))
    (h : ∀ r ∈ rules, r.isSome = true) :
    (∃ lc, resourceGCSBucketLifecycleCreateOrUpdate rules = .ok lc)
    ∨ (∃ m, resourceGCSBucketLifecycleCreateOrUpdate rules = .err m) := by
  match rules with
  | [] => exact Or.inl ⟨_, rfl⟩
  | r :: rest =>
    rcases expandLifecycleRules_shape (r :: rest) h with ⟨trs, htrs⟩ | ⟨m, hm⟩
    · exact Or.inl ⟨{ rule := trs, forceSendFields := [] },
        by simp [resourceGCSBucketLifecycleCreateOrUpdate, htrs]⟩
    · exact Or.inr ⟨m, by simp [resourceGCSBucketLifecycleCreateOrUpdate, hm]⟩

/-! Concrete configurations for the Create and Update theorems. -/

def plainCfg : BucketConfig :=
  { name := "b", labels := [], location := "US", storageClass := "STANDARD"
    lifecycleRules := [], versioning := [], website := [], cors := []
    logging := [], encryption := [], requesterPays := false }

def websiteTwoCfg : BucketConfig :=
  { plainCfg with website := [some ⟨"404.html", "index.html"⟩,
      some ⟨"404b.html", "main.html"⟩] }

def websiteOneCfg : BucketConfig :=
  { plainCfg with website := [some ⟨"404.html", "index.html"⟩] }

def websiteNilBlockCfg : BucketConfig :=
  { plainCfg with website := [none] }

def corsOldCfg : BucketConfig :=
  { plainCfg with cors := [some ⟨["*"], ["GET"], [], 3600⟩] }

def clearedOldCfg : BucketConfig :=
  { plainCfg with
      logging := [some ⟨"logbkt", "pfx"⟩]
      encryption := [some ⟨"key1"⟩]
      labels := [("gone", "1"), ("kept", "2")] }

def clearedNewCfg : BucketConfig :=
  { plainCfg with labels := [("kept", "2")] }

/-- The payload of the patch call issued by a successful Update (the
bucket of the single `.patch` call in the trace). -/
def updatedPatch (old new : BucketConfig) : StorageBucket :=
  match buildUpdatePatch old new with
  | .ok sb => sb
  | _ => emptyStorageBucket

/-- C4 (counterexample): an update that clears the cors rules from one
block to none issues a patch that neither carries a cors value nor
marks cors for null-out — the field is silently omitted, so the prior
remote value stays. -/
theorem update_cleared_cors_not_nulled :
    corsOldCfg.cors ≠ [] ∧ plainCfg.cors = []
    ∧ resourceStorageBucketUpdate corsOldCfg plainCfg
        = ([.patch "b" emptyStorageBucket], .ok)
    ∧ emptyStorageBucket.nullFields = [] := by
  refine ⟨by decide, rfl, ?_, rfl⟩
  rfl

/-- C4 (amended): when only logging, encryption and labels change
between two well-formed configurations (other blocks unchanged, new
cors empty), the sparse patch explicitly marks cleared fields: a
cleared logging block yields the null marker `Logging`, a cleared
encryption block yields `Encryption`, and every label key dropped from
the configuration yields the per-key marker `Labels.<key>`; the claim
fails for cors and website, which are silently omitted when cleared
(see the counterexample). -/
theorem update_null_markers_logging_encryption_labels
    (old new : BucketConfig)
    (hlc : old.lifecycleRules = new.lifecycleRules)
    (hrp : old.requesterPays = new.requesterPays)
    (hv : old.versioning = new.versioning)
    (hw : old.website = new.website)
    (hcors : new.cors = [])
    (hlogOld : old.logging ≠ [])
    (hlogNew : new.logging = [])
    (hencOld : old.encryption ≠ [])
    (hencNew : new.encryption = [])
    (hlab : old.labels ≠ new.labels) :
    (resourceStorageBucketUpdate old new).2 = .ok
    ∧ "Logging" ∈ (updatedPatch old new).nullFields
    ∧ "Encryption" ∈ (updatedPatch old new).nullFields
    ∧ ∀ k v, (k, v) ∈ old.labels → new.labels.lookup k = none →
        ("Labels." ++ k) ∈ (updatedPatch old new).nullFields := by
  by_cases hle : new.labels = []
  · have hlabE : old.labels ≠ [] := by rw [hle] at hlab; exact hlab
    refine ⟨?_, ?_, ?_, ?_⟩
    · simp [resourceStorageBucketUpdate, buildUpdatePatch, hlc, hrp, hv, hw,
        hcors, hlogNew, hencNew, hlogOld, hencOld, hle, hlabE]
    · simp [updatedPatch, buildUpdatePatch, hlc, hrp, hv, hw, hcors,
        hlogNew, hencNew, hlogOld, hencOld, hle, hlabE, emptyStorageBucket]
    · simp [updatedPatch, buildUpdatePatch, hlc, hrp, hv, hw, hcors,
        hlogNew, hencNew, hlogOld, hencOld, hle, hlabE, emptyStorageBucket]
    · intro k v hkv hlook
      simp [updatedPatch, buildUpdatePatch, hlc, hrp, hv, hw, hcors,
        hlogNew, hencNew, hlogOld, hencOld, hle, hlabE, emptyStorageBucket,
        List.mem_map]
      have hex : ∃ a, (∃ x, (a, x) ∈ old.labels)
          ∧ "Labels." ++ a = "Labels." ++ k := ⟨k, ⟨v, hkv⟩, rfl⟩
      tauto
  · refine ⟨?_, ?_, ?_, ?_⟩
    · simp [resourceStorageBucketUpdate, buildUpdatePatch, hlc, hrp, hv, hw,
        hcors, hlogNew, hencNew, hlogOld, hencOld, hle, hlab]
    · simp [updatedPatch, buildUpdatePatch, hlc, hrp, hv, hw, hcors,
        hlogNew, hencNew, hlogOld, hencOld, hle, hlab, emptyStorageBucket]
    · simp [updatedPatch, buildUpdatePatch, hlc, hrp, hv, hw, hcors,
        hlogNew, hencNew, hlogOld, hencOld, hle, hlab, emptyStorageBucket]
    · intro k v hkv hlook
      have hlook2 : ∀ a1 b, (a1, b) ∈ new.labels → ¬ k = a1 := by
        rw [List.lookup_eq_none_iff] at hlook
        intro a1 b hb
        simpa using hlook (a1, b) hb
      simp [updatedPatch, buildUpdatePatch, hlc, hrp, hv, hw, hcors,
        hlogNew, hencNew, hlogOld, hencOld, hle, hlab, emptyStorageBucket,
        List.mem_map, List.mem_filter]
      have hex : ∃ a, ((∃ x, (a, x) ∈ old.labels)
            ∧ ∀ a1 b, (a1, b) ∈ new.labels → ¬ a = a1)
          ∧ "Labels." ++ a = "Labels." ++ k :=
        ⟨k, ⟨⟨v, hkv⟩, fun a1 b hb => hlook2 a1 b hb⟩, rfl⟩
      tauto

/-- C4 (witness): logging and encryption cleared and the label `gone`
dropped while `kept` stays: the patch carries `Logging`, `Encryption`
and `Labels.gone` null markers. -/
theorem update_null_markers_witness :
    (resourceStorageBucketUpdate clearedOldCfg clearedNewCfg).2 = .ok
    ∧ "Logging" ∈ (updatedPatch clearedOldCfg clearedNewCfg).nullFields
    ∧ "Encryption" ∈ (updatedPatch clearedOldCfg clearedNewCfg).nullFields
    ∧ ∀ k v, (k, v) ∈ clearedOldCfg.labels →
        clearedNewCfg.labels.lookup k = none →
        ("Labels." ++ k) ∈ (updatedPatch clearedOldCfg clearedNewCfg).nullFields :=
  update_null_markers_logging_encryption_labels clearedOldCfg clearedNewCfg
    rfl rfl rfl rfl rfl (by decide) rfl (by decide) rfl (by decide)

/-- C9 (counterexample): an Update whose configuration still holds two
website blocks but where the website value did not change performs no
validation at all — it issues the patch call and succeeds instead of
returning a validation error. -/
theorem update_unchanged_website_not_validated :
    1 < websiteTwoCfg.website.length
    ∧ resourceStorageBucketUpdate websiteTwoCfg websiteTwoCfg
        = ([.patch "b" emptyStorageBucket], .ok) := by
  refine ⟨by decide, ?_⟩
  rfl

/-- C9 (amended): Create rejects every configuration with more than one
website block before issuing any remote call, provided the earlier
processed blocks (lifecycle rules, versioning) contain no nil elements
(a nil element would abort the process there instead); Update does so
only when the website value actually changed — an unchanged oversized
website list is not re-validated (see the counterexample). -/
theorem website_length_validation_before_remote_call :
    (∀ cfg : BucketConfig,
        (∀ r ∈ cfg.lifecycleRules, r.isSome = true) →
        (∀ b ∈ cfg.versioning, b.isSome = true) →
        1 < cfg.website.length →
        (resourceStorageBucketCreate cfg).1 = []
        ∧ ∃ m, (resourceStorageBucketCreate cfg).2 = GoOutcome.err m)
    ∧ (∀ old new : BucketConfig,
        old.lifecycleRules = new.lifecycleRules →
        old.versioning = new.versioning →
        old.website ≠ new.website →
        1 < new.website.length →
        resourceStorageBucketUpdate old new
          = ([], .err "At most one website block is allowed")) := by
  constructor
  · intro cfg hrules hvers hlen
    rcases lifecycleCreateOrUpdate_shape cfg.lifecycleRules hrules with
      ⟨lc, hlc⟩ | ⟨m, hm⟩
    · rcases hv : cfg.versioning with _ | ⟨v0, vs⟩
      · rcases hwl : cfg.website with _ | ⟨w0, _ | ⟨w1, rest2⟩⟩
        · rw [hwl] at hlen; simp at hlen
        · rw [hwl] at hlen; simp at hlen
        · simp [resourceStorageBucketCreate, buildCreateBucket, hlc, hv, hwl]
      · obtain ⟨b, hb⟩ : ∃ b, v0 = some b := by
          have := hvers v0 (by simp [hv])
          cases v0 with
          | none => simp at this
          | some b => exact ⟨b, rfl⟩
        subst hb
        rcases hwl : cfg.website with _ | ⟨w0, _ | ⟨w1, rest2⟩⟩
        · rw [hwl] at hlen; simp at hlen
        · rw [hwl] at hlen; simp at hlen
        · simp [resourceStorageBucketCreate, buildCreateBucket, hlc, hv, hwl,
            expandBucketVersioning]
    · simp [resourceStorageBucketCreate, buildCreateBucket, hm]
  · intro old new hlc hv hw hlen
    rcases hwl : new.website with _ | ⟨w0, _ | ⟨w1, rest2⟩⟩
    · rw [hwl] at hlen; simp at hlen
    · rw [hwl] at hlen; simp at hlen
    · rw [hwl] at hw
      simp [resourceStorageBucketUpdate, buildUpdatePatch, hlc, hv, hw, hwl]

/-- C9 (witness): updating from no website block to two website blocks
fails with the validation error and issues no remote call. -/
theorem website_length_validation_witness :
    resourceStorageBucketUpdate plainCfg websiteTwoCfg
      = ([], .err "At most one website block is allowed") :=
  website_length_validation_before_remote_call.2 plainCfg websiteTwoCfg
    rfl rfl (by decide) (by decide)

/-- C10 (code_bug evaluation): an update whose website value changes to
a one-element list holding a nil block reaches the clearing branch with
`sb.Website` still nil; the source writes through that nil pointer, so
Update aborts instead of patching the website fields to empty strings —
contrary to the claim that Update never aborts there. -/
theorem update_emptied_website_block_nil_deref :
    resourceStorageBucketUpdate websiteOneCfg websiteNilBlockCfg
      = ([], .panicked) := by
  rfl
